import Mathlib

/-!
Shallow embedding of the PyFlashLogger repository (flashlogger package):
the level registry (`flashlogger/log_levels.py`), the channel filter
(`flashlogger/log_channel_abc.py`) and the multi-channel dispatcher
(`flashlogger/flash_logger.py`), together with theorems settling the
specification claims about them.

Python's mutable class-level state (`LogLevel.custom_levels`,
`LogLevel.custom_str_map`) is embedded as an explicit `Registry` value
threaded through every operation; a Python exception is an `Except.error`
result.  Machine integers of the source are `Int`.
-/

namespace PyFlashLogger

/-- Members of the `LogLevel` enum from `flashlogger/log_levels.py`,
in source declaration order: seven predefined levels, three command
levels, 10 dynamic custom levels. -/
inductive LogLevel where
  | NOTSET
  | DEBUG
  | INFO
  | WARNING
  | ERROR
  | FATAL
  | CRITICAL
  | COMMAND
  | COMMAND_OUTPUT
  | COMMAND_STDERR
  | CUSTOM0
  | CUSTOM1
  | CUSTOM2
  | CUSTOM3
  | CUSTOM4
  | CUSTOM5
  | CUSTOM6
  | CUSTOM7
  | CUSTOM8
  | CUSTOM9
deriving DecidableEq, Repr

/-- Iteration order of `LogLevel` (Python enum definition order), used for
`set(LogLevel)` in the filter code. -/
def allLevels : List LogLevel :=
  [.NOTSET, .DEBUG, .INFO, .WARNING, .ERROR, .FATAL, .CRITICAL,
   .COMMAND, .COMMAND_OUTPUT, .COMMAND_STDERR,
   .CUSTOM0, .CUSTOM1, .CUSTOM2, .CUSTOM3, .CUSTOM4,
   .CUSTOM5, .CUSTOM6, .CUSTOM7, .CUSTOM8, .CUSTOM9]

/-- Python's `level.name` for each member. -/
def levelName : LogLevel → String
  | .NOTSET => "NOTSET"
  | .DEBUG => "DEBUG"
  | .INFO => "INFO"
  | .WARNING => "WARNING"
  | .ERROR => "ERROR"
  | .FATAL => "FATAL"
  | .CRITICAL => "CRITICAL"
  | .COMMAND => "COMMAND"
  | .COMMAND_OUTPUT => "COMMAND_OUTPUT"
  | .COMMAND_STDERR => "COMMAND_STDERR"
  | .CUSTOM0 => "CUSTOM0"
  | .CUSTOM1 => "CUSTOM1"
  | .CUSTOM2 => "CUSTOM2"
  | .CUSTOM3 => "CUSTOM3"
  | .CUSTOM4 => "CUSTOM4"
  | .CUSTOM5 => "CUSTOM5"
  | .CUSTOM6 => "CUSTOM6"
  | .CUSTOM7 => "CUSTOM7"
  | .CUSTOM8 => "CUSTOM8"
  | .CUSTOM9 => "CUSTOM9"

/-- Python's `level.name.lower()` for each member: the member names are
fixed constants, so their `.lower()` images are embedded directly. -/
def levelNameLower : LogLevel → String
  | .NOTSET => "notset"
  | .DEBUG => "debug"
  | .INFO => "info"
  | .WARNING => "warning"
  | .ERROR => "error"
  | .FATAL => "fatal"
  | .CRITICAL => "critical"
  | .COMMAND => "command"
  | .COMMAND_OUTPUT => "command_output"
  | .COMMAND_STDERR => "command_stderr"
  | .CUSTOM0 => "custom0"
  | .CUSTOM1 => "custom1"
  | .CUSTOM2 => "custom2"
  | .CUSTOM3 => "custom3"
  | .CUSTOM4 => "custom4"
  | .CUSTOM5 => "custom5"
  | .CUSTOM6 => "custom6"
  | .CUSTOM7 => "custom7"
  | .CUSTOM8 => "custom8"
  | .CUSTOM9 => "custom9"

/-- Python's `LogLevel[name]` member lookup (exact, upper-case key),
`none` standing for a `KeyError`. -/
def levelOfName (s : String) : Option LogLevel :=
  (allLevels.find? fun l => levelName l == s)

/-- Mutable class-level state of `LogLevel`: `LogLevel.custom_levels`
(10 slots, `logging.NOTSET = 0` marking a free slot) and
`LogLevel.custom_str_map`. -/
structure Registry where
  custom_levels : List Int
  custom_str_map : List (LogLevel × String)
deriving DecidableEq, Repr

/-- Module-load state: `LogLevel.custom_levels = [logging.NOTSET] * 10`,
empty `custom_str_map`. -/
def initialRegistry : Registry :=
  { custom_levels := List.replicate 10 0, custom_str_map := [] }

/-- Value of `LogLevel.command_level = logging.INFO + 2`. -/
def command_level : Int := 20 + 2

/-- Value of `LogLevel.command_stdout_level = logging.INFO + 4`. -/
def command_stdout_level : Int := 20 + 4

/-- Value of `LogLevel.command_stderr_level = logging.INFO + 6`. -/
def command_stderr_level : Int := 20 + 6

/-- `LogLevel.standard_mapping` from `log_levels.py`: numeric value to
member, for the ten standard (non-custom) members.  `logging.FATAL` is
`50` in Python, so the `FATAL` key is `logging.FATAL + 1 = 51`. -/
def standard_mapping (v : Int) : Option LogLevel :=
  if v = 0 then some .NOTSET
  else if v = 10 then some .DEBUG
  else if v = 20 then some .INFO
  else if v = command_level then some .COMMAND
  else if v = command_stdout_level then some .COMMAND_OUTPUT
  else if v = command_stderr_level then some .COMMAND_STDERR
  else if v = 30 then some .WARNING
  else if v = 40 then some .ERROR
  else if v = 50 then some .CRITICAL
  else if v = 50 + 1 then some .FATAL
  else none

/-- Python's `custom_levels[i]` read (index is always in range in the
source; out of range yields the free-slot sentinel here). -/
def nthD : List Int → Nat → Int
  | [], _ => 0
  | x :: _, 0 => x
  | _ :: xs, n + 1 => nthD xs n

/-- Python's `custom_levels[i] = v` assignment. -/
def setNth : List Int → Nat → Int → List Int
  | [], _, _ => []
  | _ :: xs, 0, v => v :: xs
  | x :: xs, n + 1, v => x :: setNth xs n v

/-- Model of `for i, val in enumerate(xs): if p(val): return i`. -/
def findFirstIdx (p : Int → Bool) : List Int → Option Nat
  | [] => none
  | x :: xs => if p x then some 0 else (findFirstIdx p xs).map (· + 1)

/-- Model of `getattr(cls, f"CUSTOM{i}")` for the slot indices 0-9 (other
indices never occur with a 10-slot registry). -/
def customMember : Nat → LogLevel
  | 0 => .CUSTOM0
  | 1 => .CUSTOM1
  | 2 => .CUSTOM2
  | 3 => .CUSTOM3
  | 4 => .CUSTOM4
  | 5 => .CUSTOM5
  | 6 => .CUSTOM6
  | 7 => .CUSTOM7
  | 8 => .CUSTOM8
  | 9 => .CUSTOM9
  | _ => .NOTSET

/-- `LogLevel.logging_level` from `log_levels.py`: a member of
`standard_mapping.values()` maps through the inverted dictionary; the
command members are already in the mapping; a custom member returns its
slot's assigned value (`custom_levels[i]`, the free sentinel `0 =
logging.NOTSET` when unbound). -/
def logging_level (slots : List Int) : LogLevel → Int
  | .NOTSET => 0
  | .DEBUG => 10
  | .INFO => 20
  | .WARNING => 30
  | .ERROR => 40
  | .CRITICAL => 50
  | .FATAL => 50 + 1
  | .COMMAND => command_level
  | .COMMAND_OUTPUT => command_stdout_level
  | .COMMAND_STDERR => command_stderr_level
  | .CUSTOM0 => nthD slots 0
  | .CUSTOM1 => nthD slots 1
  | .CUSTOM2 => nthD slots 2
  | .CUSTOM3 => nthD slots 3
  | .CUSTOM4 => nthD slots 4
  | .CUSTOM5 => nthD slots 5
  | .CUSTOM6 => nthD slots 6
  | .CUSTOM7 => nthD slots 7
  | .CUSTOM8 => nthD slots 8
  | .CUSTOM9 => nthD slots 9

/-- Dictionary write `d[k] = v` on an association list: replace the first
binding of `k` when present, else append. -/
def assocSet {κ β : Type} [BEq κ] (m : List (κ × β)) (k : κ) (v : β) :
    List (κ × β) :=
  if m.any (fun p => p.1 == k) then
    m.map (fun p => if p.1 == k then (k, v) else p)
  else m ++ [(k, v)]

/-- Dictionary read `d.get(k)` on an association list. -/
def assocGet {κ β : Type} [BEq κ] (m : List (κ × β)) (k : κ) : Option β :=
  (m.find? fun p => p.1 == k).map (·.2)

/-- `LogLevel.custom_level` from `log_levels.py`.  Negative values give
`NOTSET`; a standard value gives its member; a value equal to a bound
slot gives that slot's member; otherwise the first free slot is bound
(recording the optional representation); with no free slot it raises
`ValueError("No available custom log level slots.")`.  The returned
registry is the class state after the call, also when it raises. -/
def custom_level (level : Int) (representation : Option String)
    (r : Registry) : Except String LogLevel × Registry :=
  if level < 0 then (.ok .NOTSET, r)
  else
    match standard_mapping level with
    | some m => (.ok m, r)
    | none =>
      match findFirstIdx (fun val => val == level) r.custom_levels with
      | some i => (.ok (customMember i), r)
      | none =>
        match findFirstIdx (fun val => val == 0) r.custom_levels with
        | some i =>
          let m := customMember i
          let strMap :=
            match representation with
            | some s => assocSet r.custom_str_map m s
            | none => r.custom_str_map
          (.ok m, { custom_levels := setNth r.custom_levels i level,
                    custom_str_map := strMap })
        | none => (.error "No available custom log level slots.", r)

/-- `LogLevel.set_str_repr`: `custom_str_map[level] = representation`. -/
def set_str_repr (strMap : List (LogLevel × String)) (level : LogLevel)
    (representation : String) : List (LogLevel × String) :=
  assocSet strMap level representation

/-- `LogLevel.clear_str_reprs`: `custom_str_map.clear()`. -/
def clear_str_reprs : List (LogLevel × String) := []

/-- `LogLevel.__str__`: the override from `custom_str_map` when present,
else `self.name.lower()`. -/
def levelStr (strMap : List (LogLevel × String)) (level : LogLevel) :
    String :=
  (assocGet strMap level).getD (levelNameLower level)

/-!
Channel filter: `LogChannelABC._configure_levels` and
`LogChannelABC.is_loggable` from `flashlogger/log_channel_abc.py`.
A level reference in the Python API is a `LogLevel`, a `str`
(member name, upper-cased) or an `int` (resolved through
`LogLevel.custom_level`, which may mutate the registry or raise).
-/

/-- A single level reference as accepted item-wise by the filter code:
`LogLevel` member, name string, or numeric value. -/
inductive LevelItem where
  | lvl (l : LogLevel)
  | str (s : String)
  | num (v : Int)
deriving DecidableEq, Repr

/-- A value passed as `include_log_levels` / `exclude_log_levels`:
single reference, a collection of references, or something of another
type (the fallback `else` branches of the source). -/
inductive LevelArg where
  | lvl (l : LogLevel)
  | str (s : String)
  | num (v : Int)
  | coll (items : List LevelItem)
  | other
deriving DecidableEq, Repr

/-- A value passed as `minimum_log_level`: a level argument, or the
`{"exclude": [...]}` dictionary form recognised only in this
position. -/
inductive MinArg where
  | arg (a : LevelArg)
  | excludeDict (items : List LevelItem)
deriving DecidableEq, Repr

/-- Resolution of one level reference: `LogLevel[s.upper()]` for a
string (a missing name raises `KeyError`), `LogLevel.custom_level` for
an int (may mutate the registry or raise), identity for a member. -/
def resolveItem (it : LevelItem) (r : Registry) :
    Except String LogLevel × Registry :=
  match it with
  | .lvl l => (.ok l, r)
  | .str s =>
    match levelOfName s.toUpper with
    | some l => (.ok l, r)
    | none => (.error ("KeyError: " ++ s), r)
  | .num v => custom_level v none r

/-- Resolution of a collection of level references in order, threading
the registry; a raised exception aborts the loop and leaves the registry
as mutated so far. -/
def resolveItems : List LevelItem → Registry →
    Except String (List LogLevel) × Registry
  | [], r => (.ok [], r)
  | it :: rest, r =>
    match resolveItem it r with
    | (.error e, r1) => (.error e, r1)
    | (.ok l, r1) =>
      match resolveItems rest r1 with
      | (.error e, r2) => (.error e, r2)
      | (.ok ls, r2) => (.ok (l :: ls), r2)

/-- Exclusion-set construction of `_configure_levels` (the
`exclude_log_levels is not None` branch): build the excluded set from a
string, int, member or iterable (empty for any other type). -/
def resolveExcluded (a : LevelArg) (r : Registry) :
    Except String (List LogLevel) × Registry :=
  match a with
  | .str s =>
    match levelOfName s.toUpper with
    | some l => (.ok [l], r)
    | none => (.error ("KeyError: " ++ s), r)
  | .num v =>
    match custom_level v none r with
    | (.ok l, r1) => (.ok [l], r1)
    | (.error e, r1) => (.error e, r1)
  | .lvl l => (.ok [l], r)
  | .coll items => resolveItems items r
  | .other => (.ok [], r)

/-- Threshold resolution of `_configure_levels` (the tail of the
`minimum_log_level` branch): string, int or member; any other type
falls back to `NOTSET`. -/
def resolveThreshold (a : LevelArg) (r : Registry) :
    Except String LogLevel × Registry :=
  match a with
  | .str s =>
    match levelOfName s.toUpper with
    | some l => (.ok l, r)
    | none => (.error ("KeyError: " ++ s), r)
  | .num v => custom_level v none r
  | .lvl l => (.ok l, r)
  | .coll _ => (.ok .NOTSET, r)
  | .other => (.ok .NOTSET, r)

/-- `LogChannelABC._configure_levels` from `log_channel_abc.py`:
priority exclude over include over minimum; exclusion stores
`set(LogLevel) - excluded`; inclusion stores exactly the given levels
(the empty set for an empty collection or an unrecognised type);
`minimum_log_level` in dictionary form is exclusion, otherwise a
threshold keeping every level whose `logging_level()` is at least the
threshold's; with no parameter at all every member is loggable.  The
result is the computed `__loggable_levels` set (as a list whose
membership is the set) paired with the possibly mutated registry. -/
def configure_levels (minimum : Option MinArg) (includeArg : Option LevelArg)
    (excludeArg : Option LevelArg) (r : Registry) :
    Except String (List LogLevel) × Registry :=
  match excludeArg with
  | some ex =>
    match resolveExcluded ex r with
    | (.error e, r1) => (.error e, r1)
    | (.ok excluded, r1) =>
      (.ok (allLevels.filter (fun l => decide (l ∉ excluded))), r1)
  | none =>
    match includeArg with
    | some inc =>
      match inc with
      | .str s =>
        match levelOfName s.toUpper with
        | some l => (.ok [l], r)
        | none => (.error ("KeyError: " ++ s), r)
      | .num v =>
        match custom_level v none r with
        | (.ok l, r1) => (.ok [l], r1)
        | (.error e, r1) => (.error e, r1)
      | .lvl l => (.ok [l], r)
      | .coll items => resolveItems items r
      | .other => (.ok [], r)
    | none =>
      match minimum with
      | some (.excludeDict items) =>
        match resolveItems items r with
        | (.error e, r1) => (.error e, r1)
        | (.ok excluded, r1) =>
          (.ok (allLevels.filter (fun l => decide (l ∉ excluded))), r1)
      | some (.arg a) =>
        match resolveThreshold a r with
        | (.error e, r1) => (.error e, r1)
        | (.ok t, r1) =>
          (.ok (allLevels.filter
            (fun l => logging_level r1.custom_levels t ≤
                      logging_level r1.custom_levels l)), r1)
      | none => (.ok allLevels, r)

/-- `LogChannelABC.is_loggable`: resolve a string or int reference
first (the int path goes through `LogLevel.custom_level` and may mutate
the registry or raise), then test membership in the stored
`__loggable_levels` set. -/
def is_loggable (loggable : List LogLevel) (arg : LevelItem)
    (r : Registry) : Except String Bool × Registry :=
  match resolveItem arg r with
  | (.ok l, r1) => (.ok (decide (l ∈ loggable)), r1)
  | (.error e, r1) => (.error e, r1)

/-!
Dispatcher: `FlashLogger` from `flashlogger/flash_logger.py`.
For the `log` dispatch loop a channel is its class name together with
the behaviour of its `do_log` method on the current call (`Except.ok`
for a normal return, `Except.error` for a raised exception).
-/

/-- A registered channel as seen by `FlashLogger.log`: `do_log` either
returns normally or raises. -/
structure Channel where
  className : String
  do_log : LogLevel → Except String Unit

/-- Observable outcome of one `FlashLogger.log` call: the channels whose
`do_log` was invoked (by class name, in registration order) and the
diagnostic lines printed to `sys.stderr` by the `except` clause. -/
structure DispatchResult where
  invoked : List String
  stderrLines : List String
deriving DecidableEq, Repr

/-- Diagnostic written by `FlashLogger.log` when a channel's `do_log`
raises: `"Error logging to channel <name>: <e>"`. -/
def errLine (className e : String) : String :=
  "Error logging to channel " ++ className ++ ": " ++ e

/-- Dispatch loop of `FlashLogger.log`: every registered channel's
`do_log` is called in order inside `try`; a raised exception is caught,
a diagnostic goes to stderr, and iteration continues with the next
channel.  The function is total: `log` never propagates a channel
exception to its caller. -/
def logDispatch : List Channel → LogLevel → DispatchResult
  | [], _ => { invoked := [], stderrLines := [] }
  | ch :: rest, lv =>
    let tail := logDispatch rest lv
    match ch.do_log lv with
    | .ok _ =>
      { invoked := ch.className :: tail.invoked,
        stderrLines := tail.stderrLines }
    | .error e =>
      { invoked := ch.className :: tail.invoked,
        stderrLines := errLine ch.className e :: tail.stderrLines }

/-- Mutable channel bookkeeping of a `FlashLogger` instance: the ordered
channel list, the identifier counter, the id-to-channel dictionary and
the selector-to-channel dictionary.  Channel identity (Python object
identity, which is also `==` for channels) is a `Nat` tag. -/
structure LoggerState where
  log_channels : List Nat
  channel_id_counter : Nat
  channel_ids : List (Nat × Nat)
  channel_selectors : List (String × Nat)
deriving DecidableEq, Repr

/-- `FlashLogger.add_channel`: a channel already present only gets its
selector recorded; a new channel is appended, bound to the current
counter value as its identifier, and the counter is incremented. -/
def add_channel (c : Nat) (selector : Option String) (s : LoggerState) :
    LoggerState :=
  if c ∈ s.log_channels then
    match selector with
    | some n => { s with channel_selectors := assocSet s.channel_selectors n c }
    | none => s
  else
    { log_channels := s.log_channels ++ [c],
      channel_ids := s.channel_ids ++ [(s.channel_id_counter, c)],
      channel_id_counter := s.channel_id_counter + 1,
      channel_selectors :=
        match selector with
        | some n => assocSet s.channel_selectors n c
        | none => s.channel_selectors }

/-- The three reference forms accepted by `FlashLogger.remove_channel`:
identifier, selector name, or channel instance. -/
inductive ChannelRef where
  | byId (i : Nat)
  | bySelector (n : String)
  | byInstance (c : Nat)
deriving DecidableEq, Repr

/-- Deletion of the first dictionary entry whose value is the given
channel (the `for ...: if chan is channel_to_remove: del ...; break`
loops of `remove_channel`). -/
def eraseFirstVal {κ : Type} : List (κ × Nat) → Nat → List (κ × Nat)
  | [], _ => []
  | p :: rest, c => if p.2 == c then rest else p :: eraseFirstVal rest c

/-- `FlashLogger.remove_channel`: resolve the reference to a channel
(silently doing nothing when it resolves to nothing or to a channel not
in `log_channels`), then remove it from the channel list, from the id
map and from the selector map. -/
def remove_channel (ref : ChannelRef) (s : LoggerState) : LoggerState :=
  let target : Option Nat :=
    match ref with
    | .byId i => assocGet s.channel_ids i
    | .bySelector n => assocGet s.channel_selectors n
    | .byInstance c => some c
  match target with
  | none => s
  | some c =>
    if c ∈ s.log_channels then
      { log_channels := s.log_channels.erase c,
        channel_id_counter := s.channel_id_counter,
        channel_ids := eraseFirstVal s.channel_ids c,
        channel_selectors := eraseFirstVal s.channel_selectors c }
    else s

/-- Integer branch of `FlashLogger.get_channel`: look the identifier up
in `_channel_ids`, raising `ValueError("No channel found with ID i")`
when absent. -/
def get_channel_by_id (i : Nat) (s : LoggerState) : Except String Nat :=
  match assocGet s.channel_ids i with
  | some c => .ok c
  | none => .error ("No channel found with ID " ++ toString i)

/-- A channel-management call on a `FlashLogger` instance. -/
inductive LoggerOp where
  | add (c : Nat) (selector : Option String)
  | remove (ref : ChannelRef)
deriving DecidableEq, Repr

/-- Application of one channel-management call. -/
def applyOp (s : LoggerState) : LoggerOp → LoggerState
  | .add c sel => add_channel c sel s
  | .remove ref => remove_channel ref s

/-- Application of a sequence of channel-management calls. -/
def runOps (ops : List LoggerOp) (s : LoggerState) : LoggerState :=
  ops.foldl applyOp s

/-- State of a fresh `FlashLogger` before any channel is added:
counter `0`, everything empty. -/
def emptyLoggerState : LoggerState :=
  { log_channels := [], channel_id_counter := 0,
    channel_ids := [], channel_selectors := [] }

/-- Well-formedness maintained by `FlashLogger`: every bound identifier
is below the counter, identifiers are pairwise distinct, each channel is
bound to at most one identifier, every bound channel is registered, and
the channel list has no duplicates. -/
def WfLogger (s : LoggerState) : Prop :=
  (∀ p ∈ s.channel_ids, p.1 < s.channel_id_counter) ∧
  (s.channel_ids.map Prod.fst).Nodup ∧
  (s.channel_ids.map Prod.snd).Nodup ∧
  (∀ p ∈ s.channel_ids, p.2 ∈ s.log_channels) ∧
  s.log_channels.Nodup

/-!
Theorems.  The helper lemmas below are shared infrastructure; the claim
theorems follow, one per specification claim.
-/

/-- Every enum member occurs in `allLevels`. -/
theorem mem_allLevels (l : LogLevel) : l ∈ allLevels := by
  cases l <;> simp [allLevels]

/-- Writing a key into an association list and reading it back yields the
written value. -/
theorem assocGet_assocSet {κ β : Type} [BEq κ] [LawfulBEq κ]
    (m : List (κ × β)) (k : κ) (v : β) :
    assocGet (assocSet m k v) k = some v := by
  induction m with
  | nil => simp [assocSet, assocGet]
  | cons p rest ih =>
    by_cases hp : p.1 == k
    · have hm : assocSet (p :: rest) k v =
          (k, v) :: rest.map (fun q => if q.1 == k then (k, v) else q) := by
        simp [assocSet, hp]
      rw [hm]
      simp [assocGet]
    · have hm : assocSet (p :: rest) k v = p :: assocSet rest k v := by
        by_cases hr : rest.any (fun q => q.1 == k)
        · simp [assocSet, hp, hr]
        · simp [assocSet, hp, hr]
      rw [hm]
      simpa [assocGet, List.find?, hp] using ih

/-- C2: for every standard severity the numeric value returned by
`logging_level` is the documented constant (NOTSET 0, DEBUG 10, INFO 20,
COMMAND 22, COMMAND_OUTPUT 24, COMMAND_STDERR 26, WARNING 30, ERROR 40,
CRITICAL 50, FATAL 51), independently of the custom-slot state, and
these values are strictly ordered as NOTSET < DEBUG < INFO < COMMAND <
COMMAND_OUTPUT < COMMAND_STDERR < WARNING < ERROR < CRITICAL < FATAL. -/
theorem standard_levels_values_and_order (slots : List Int) :
    (logging_level slots .NOTSET = 0 ∧
     logging_level slots .DEBUG = 10 ∧
     logging_level slots .INFO = 20 ∧
     logging_level slots .COMMAND = 22 ∧
     logging_level slots .COMMAND_OUTPUT = 24 ∧
     logging_level slots .COMMAND_STDERR = 26 ∧
     logging_level slots .WARNING = 30 ∧
     logging_level slots .ERROR = 40 ∧
     logging_level slots .CRITICAL = 50 ∧
     logging_level slots .FATAL = 51) ∧
    (logging_level slots .NOTSET < logging_level slots .DEBUG ∧
     logging_level slots .DEBUG < logging_level slots .INFO ∧
     logging_level slots .INFO < logging_level slots .COMMAND ∧
     logging_level slots .COMMAND < logging_level slots .COMMAND_OUTPUT ∧
     logging_level slots .COMMAND_OUTPUT < logging_level slots .COMMAND_STDERR ∧
     logging_level slots .COMMAND_STDERR < logging_level slots .WARNING ∧
     logging_level slots .WARNING < logging_level slots .ERROR ∧
     logging_level slots .ERROR < logging_level slots .CRITICAL ∧
     logging_level slots .CRITICAL < logging_level slots .FATAL) := by
  norm_num [logging_level, command_level, command_stdout_level,
    command_stderr_level]

/-- C9: after `set_str_repr(S, "TRACE")` the display label of `S` is
`"TRACE"`, and after `clear_str_reprs()` the display label of every
severity reverts to its canonical lowercase name, e.g.
`str(CUSTOM0) = "custom0"`. -/
theorem str_repr_roundtrip (strMap : List (LogLevel × String))
    (S : LogLevel) :
    levelStr (set_str_repr strMap S "TRACE") S = "TRACE" ∧
    levelStr clear_str_reprs S = levelNameLower S ∧
    levelStr clear_str_reprs LogLevel.CUSTOM0 = "custom0" := by
  refine ⟨?_, rfl, by decide⟩
  simp [levelStr, set_str_repr, assocGet_assocSet]

/-- C6: a channel constructed with no filter parameters permits every
known severity, while a channel configured with an empty inclusion
collection permits no severity at all. -/
theorem default_permits_all_empty_inclusion_permits_none
    (r r2 : Registry) (L : LogLevel) :
    configure_levels none none none r = (.ok allLevels, r) ∧
    (is_loggable allLevels (.lvl L) r2).1 = .ok true ∧
    configure_levels none (some (.coll [])) none r = (.ok [], r) ∧
    (is_loggable [] (.lvl L) r2).1 = .ok false := by
  refine ⟨rfl, ?_, rfl, ?_⟩
  · simp [is_loggable, resolveItem, mem_allLevels]
  · simp [is_loggable, resolveItem]

/-- The dispatch loop invokes `do_log` on every registered channel, in
registration order, whatever the individual outcomes are. -/
theorem logDispatch_invoked (cs : List Channel) (lv : LogLevel) :
    (logDispatch cs lv).invoked = cs.map (fun ch => ch.className) := by
  induction cs with
  | nil => rfl
  | cons ch rest ih =>
    cases h : ch.do_log lv <;> simp [logDispatch, h, ih]

/-- Stderr diagnostics of the dispatch loop split along list append. -/
theorem logDispatch_stderr_append (xs ys : List Channel) (lv : LogLevel) :
    (logDispatch (xs ++ ys) lv).stderrLines =
      (logDispatch xs lv).stderrLines ++ (logDispatch ys lv).stderrLines := by
  induction xs with
  | nil => rfl
  | cons ch rest ih =>
    cases h : ch.do_log lv <;> simp [logDispatch, h, ih]

/-- C1: when one channel's `do_log` raises, `FlashLogger.log` catches the
exception: every channel (in particular every channel after the failing
one) still receives its `do_log` call, the diagnostic line for the
failing channel is written to stderr, and the call returns normally
(`logDispatch` is a total function into `DispatchResult`, so no channel
exception ever propagates to the caller). -/
theorem log_partial_failure_isolated (lv : LogLevel)
    (pre post : List Channel) (c : Channel) (e : String)
    (h : c.do_log lv = .error e) :
    (logDispatch (pre ++ c :: post) lv).invoked =
      (pre ++ c :: post).map (fun ch => ch.className) ∧
    errLine c.className e ∈ (logDispatch (pre ++ c :: post) lv).stderrLines := by
  refine ⟨logDispatch_invoked _ _, ?_⟩
  rw [logDispatch_stderr_append]
  simp [logDispatch, h]

/-- Witness for C1 at a concrete logger: a healthy console channel, a
file channel whose emit raises, and a second healthy console channel. -/
theorem log_partial_failure_isolated_witness :
    (logDispatch
      [{ className := "LogChannelConsole", do_log := fun _ => .ok () },
       { className := "FileLogChannel", do_log := fun _ => .error "disk full" },
       { className := "LogChannelConsole2", do_log := fun _ => .ok () }]
      .INFO).invoked =
      ["LogChannelConsole", "FileLogChannel", "LogChannelConsole2"] ∧
    errLine "FileLogChannel" "disk full" ∈
      (logDispatch
        [{ className := "LogChannelConsole", do_log := fun _ => .ok () },
         { className := "FileLogChannel", do_log := fun _ => .error "disk full" },
         { className := "LogChannelConsole2", do_log := fun _ => .ok () }]
        .INFO).stderrLines := by
  have h := log_partial_failure_isolated .INFO
    [{ className := "LogChannelConsole", do_log := fun _ => .ok () }]
    [{ className := "LogChannelConsole2", do_log := fun _ => .ok () }]
    { className := "FileLogChannel", do_log := fun _ => .error "disk full" }
    "disk full" rfl
  exact ⟨h.1.trans rfl, h.2⟩

/-- The slot-scanning loop finds nothing exactly when no slot value
satisfies the predicate. -/
theorem findFirstIdx_eq_none_iff (p : Int → Bool) (l : List Int) :
    findFirstIdx p l = none ↔ ∀ x ∈ l, p x = false := by
  induction l with
  | nil => simp [findFirstIdx]
  | cons x xs ih =>
    by_cases h : p x <;> simp [findFirstIdx, h, ih]

/-- An index returned by the slot-scanning loop is in range. -/
theorem findFirstIdx_some_lt (p : Int → Bool) (l : List Int) (i : Nat)
    (h : findFirstIdx p l = some i) : i < l.length := by
  induction l generalizing i with
  | nil => simp [findFirstIdx] at h
  | cons x xs ih =>
    by_cases hx : p x
    · simp [findFirstIdx, hx] at h
      simp [List.length_cons]
      omega
    · simp [findFirstIdx, hx] at h
      obtain ⟨j, hj, rfl⟩ := h
      have := ih j hj
      simp [List.length_cons]
      omega

/-- An index returned by the slot-scanning loop points at a matching
slot value. -/
theorem exists_mem_of_findFirstIdx_some (p : Int → Bool) (l : List Int)
    (i : Nat) (h : findFirstIdx p l = some i) :
    ∃ x ∈ l, p x = true := by
  induction l generalizing i with
  | nil => simp [findFirstIdx] at h
  | cons x xs ih =>
    by_cases hx : p x
    · exact ⟨x, List.mem_cons_self x xs, hx⟩
    · simp [findFirstIdx, hx] at h
      obtain ⟨j, hj, rfl⟩ := h
      obtain ⟨y, hy, hpy⟩ := ih j hj
      exact ⟨y, List.mem_cons_of_mem x hy, hpy⟩

/-- A value written into a slot is among the slot values. -/
theorem mem_setNth (l : List Int) (i : Nat) (v : Int) (h : i < l.length) :
    v ∈ setNth l i v := by
  induction l generalizing i with
  | nil => simp at h
  | cons x xs ih =>
    cases i with
    | zero => simp [setNth]
    | succ j =>
      simp [setNth]
      right
      exact ih j (by simpa using h)

/-- Binding a previously absent value into a slot makes the scan for
that value return exactly that slot. -/
theorem findFirstIdx_setNth (l : List Int) (i : Nat) (v : Int)
    (hnone : findFirstIdx (fun x => x == v) l = none) (hi : i < l.length) :
    findFirstIdx (fun x => x == v) (setNth l i v) = some i := by
  induction l generalizing i with
  | nil => simp at hi
  | cons x xs ih =>
    have hall := (findFirstIdx_eq_none_iff _ _).mp hnone
    have hx : (x == v) = false := hall x (List.mem_cons_self x xs)
    have hxs : findFirstIdx (fun x => x == v) xs = none :=
      (findFirstIdx_eq_none_iff _ _).mpr
        (fun y hy => hall y (List.mem_cons_of_mem x hy))
    cases i with
    | zero => simp [setNth, findFirstIdx]
    | succ j =>
      simp only [setNth, findFirstIdx, hx, if_false]
      rw [ih j hxs (by simpa using hi)]
      rfl

/-- Evaluation of `custom_level` on a non-negative, non-standard value
that is absent from the slots while a free slot exists: the first free
slot is bound. -/
theorem custom_level_eq_of_fresh (v : Int) (r : Registry) (i : Nat)
    (h0 : ¬ v < 0) (hstd : standard_mapping v = none)
    (hfv : findFirstIdx (fun val => val == v) r.custom_levels = none)
    (hf0 : findFirstIdx (fun val => val == 0) r.custom_levels = some i) :
    custom_level v none r =
      (.ok (customMember i),
       { custom_levels := setNth r.custom_levels i v,
         custom_str_map := r.custom_str_map }) := by
  simp [custom_level, h0, hstd, hfv, hf0]

/-- Evaluation of `custom_level` on a value already bound to a slot:
that slot's member is returned and the registry is untouched. -/
theorem custom_level_eq_of_existing (v : Int) (r : Registry) (i : Nat)
    (h0 : ¬ v < 0) (hstd : standard_mapping v = none)
    (hfv : findFirstIdx (fun val => val == v) r.custom_levels = some i) :
    custom_level v none r = (.ok (customMember i), r) := by
  simp [custom_level, h0, hstd, hfv]

/-- C3: when `custom_level(v)` succeeds for a non-negative value `v`
that matches no standard level, `v` is bound in the resulting registry
and calling `custom_level(v)` again returns the very same member with
the registry unchanged (idempotent registration). -/
theorem custom_level_idempotent (v : Int) (r r1 : Registry) (m : LogLevel)
    (h0 : 0 ≤ v) (hstd : standard_mapping v = none)
    (hsucc : custom_level v none r = (.ok m, r1)) :
    v ∈ r1.custom_levels ∧ custom_level v none r1 = (.ok m, r1) := by
  have hneg : ¬ v < 0 := not_lt.mpr h0
  cases hfv : findFirstIdx (fun val => val == v) r.custom_levels with
  | some i =>
    rw [custom_level_eq_of_existing v r i hneg hstd hfv] at hsucc
    obtain ⟨hm, hr⟩ : customMember i = m ∧ r = r1 := by
      simpa using hsucc
    subst hm; subst hr
    refine ⟨?_, custom_level_eq_of_existing v r i hneg hstd hfv⟩
    obtain ⟨x, hx, hpx⟩ := exists_mem_of_findFirstIdx_some _ _ _ hfv
    have : x = v := by simpa using hpx
    exact this ▸ hx
  | none =>
    cases hf0 : findFirstIdx (fun val => val == 0) r.custom_levels with
    | some i =>
      rw [custom_level_eq_of_fresh v r i hneg hstd hfv hf0] at hsucc
      obtain ⟨hm, hr⟩ : customMember i = m ∧
          ({ custom_levels := setNth r.custom_levels i v,
             custom_str_map := r.custom_str_map } : Registry) = r1 := by
        simpa using hsucc
      subst hm; subst hr
      have hi : i < r.custom_levels.length := findFirstIdx_some_lt _ _ _ hf0
      have hfind : findFirstIdx (fun val => val == v)
          (setNth r.custom_levels i v) = some i :=
        findFirstIdx_setNth _ _ _ hfv hi
      exact ⟨mem_setNth _ _ _ hi,
        custom_level_eq_of_existing v _ i hneg hstd hfind⟩
    | none =>
      simp [custom_level, hneg, hstd, hfv, hf0] at hsucc

/-- Witness for C3: binding `35` in the pristine registry takes slot 0
(member `CUSTOM0`); rebinding `35` returns `CUSTOM0` again and leaves
the registry unchanged. -/
theorem custom_level_idempotent_witness :
    (35:Int) ∈ (Registry.mk [35, 0, 0, 0, 0, 0, 0, 0, 0, 0] []).custom_levels ∧
    custom_level 35 none (Registry.mk [35, 0, 0, 0, 0, 0, 0, 0, 0, 0] []) =
      (.ok .CUSTOM0, Registry.mk [35, 0, 0, 0, 0, 0, 0, 0, 0, 0] []) := by
  exact custom_level_idempotent 35 initialRegistry
    (Registry.mk [35, 0, 0, 0, 0, 0, 0, 0, 0, 0] []) .CUSTOM0
    (by norm_num) rfl rfl

/-- C4: with all 10 custom slots bound to distinct non-zero values, a
request for a fresh non-negative, non-standard value raises the
exhausted-slots `ValueError` and leaves the registry unchanged. -/
theorem custom_level_exhausted_raises (v : Int) (r : Registry)
    (_hlen : r.custom_levels.length = 10)
    (hnz : ∀ x ∈ r.custom_levels, x ≠ 0)
    (_hnd : r.custom_levels.Nodup)
    (h0 : 0 ≤ v) (hstd : standard_mapping v = none)
    (hnb : v ∉ r.custom_levels) :
    custom_level v none r =
      (.error "No available custom log level slots.", r) := by
  have hfv : findFirstIdx (fun val => val == v) r.custom_levels = none := by
    rw [findFirstIdx_eq_none_iff]
    intro x hx
    simp only [beq_eq_false_iff_ne, ne_eq]
    intro he
    exact hnb (he ▸ hx)
  have hf0 : findFirstIdx (fun val => val == 0) r.custom_levels = none := by
    rw [findFirstIdx_eq_none_iff]
    intro x hx
    simpa using hnz x hx
  simp [custom_level, not_lt.mpr h0, hstd, hfv, hf0]

/-- Witness for C4: ten distinct non-zero bound slot values, and the
fresh value `12` is refused without touching the registry. -/
theorem custom_level_exhausted_raises_witness :
    custom_level 12 none (Registry.mk [1, 2, 3, 4, 5, 6, 7, 8, 9, 11] []) =
      (.error "No available custom log level slots.",
       Registry.mk [1, 2, 3, 4, 5, 6, 7, 8, 9, 11] []) := by
  exact custom_level_exhausted_raises 12
    (Registry.mk [1, 2, 3, 4, 5, 6, 7, 8, 9, 11] [])
    (by decide) (by decide) (by decide) (by decide) rfl (by decide)

/-- C10: the membership test `is_loggable` is not read-only on the level
registry.  First part: for a non-negative integer argument that matches
no standard level and no bound slot, while a free slot exists, the test
completes with a boolean but binds the value into the registry as a side
effect (the resulting registry differs from the input one and contains
the value).  Second part: when every slot is bound to some other value,
the test raises the exhausted-slots `ValueError` instead of returning
`False`. -/
theorem is_loggable_int_binds_or_raises :
    (∀ (S : List LogLevel) (v : Int) (r : Registry),
      0 ≤ v → standard_mapping v = none → v ∉ r.custom_levels →
      (0:Int) ∈ r.custom_levels →
      v ∈ (is_loggable S (.num v) r).2.custom_levels ∧
      (is_loggable S (.num v) r).2 ≠ r ∧
      ∃ b, (is_loggable S (.num v) r).1 = .ok b) ∧
    (∀ (S : List LogLevel) (v : Int) (r : Registry),
      0 ≤ v → standard_mapping v = none → v ∉ r.custom_levels →
      (∀ x ∈ r.custom_levels, x ≠ 0) →
      is_loggable S (.num v) r =
        (.error "No available custom log level slots.", r)) := by
  constructor
  · intro S v r h0 hstd hnb hfree
    have hneg : ¬ v < 0 := not_lt.mpr h0
    have hfv : findFirstIdx (fun val => val == v) r.custom_levels = none := by
      rw [findFirstIdx_eq_none_iff]
      intro x hx
      simp only [beq_eq_false_iff_ne, ne_eq]
      intro he
      exact hnb (he ▸ hx)
    have hne0 : findFirstIdx (fun val => val == 0) r.custom_levels ≠ none := by
      intro hc
      have := (findFirstIdx_eq_none_iff _ _).mp hc 0 hfree
      simp at this
    cases hf0 : findFirstIdx (fun val => val == 0) r.custom_levels with
    | none => exact absurd hf0 hne0
    | some i =>
      have hcl := custom_level_eq_of_fresh v r i hneg hstd hfv hf0
      have hi : i < r.custom_levels.length := findFirstIdx_some_lt _ _ _ hf0
      have heval : is_loggable S (.num v) r =
          (.ok (decide (customMember i ∈ S)),
           { custom_levels := setNth r.custom_levels i v,
             custom_str_map := r.custom_str_map }) := by
        simp [is_loggable, resolveItem, hcl]
      rw [heval]
      refine ⟨mem_setNth _ _ _ hi, ?_, ⟨_, rfl⟩⟩
      intro hc
      have : v ∈ r.custom_levels := by
        have := congrArg Registry.custom_levels hc
        simp at this
        exact this ▸ mem_setNth _ _ _ hi
      exact hnb this
  · intro S v r h0 hstd hnb hnz
    have hneg : ¬ v < 0 := not_lt.mpr h0
    have hfv : findFirstIdx (fun val => val == v) r.custom_levels = none := by
      rw [findFirstIdx_eq_none_iff]
      intro x hx
      simp only [beq_eq_false_iff_ne, ne_eq]
      intro he
      exact hnb (he ▸ hx)
    have hf0 : findFirstIdx (fun val => val == 0) r.custom_levels = none := by
      rw [findFirstIdx_eq_none_iff]
      intro x hx
      simpa using hnz x hx
    simp [is_loggable, resolveItem, custom_level, hneg, hstd, hfv, hf0]

/-- Witness for C10: checking the unbound value `35` against a channel
that permits nothing still binds `35` to slot 0, and checking the fresh
value `12` with all ten slots bound to other values raises. -/
theorem is_loggable_int_binds_or_raises_witness :
    ((35:Int) ∈ (is_loggable [] (.num 35) initialRegistry).2.custom_levels ∧
     (is_loggable [] (.num 35) initialRegistry).2 ≠ initialRegistry ∧
     ∃ b, (is_loggable [] (.num 35) initialRegistry).1 = .ok b) ∧
    is_loggable [] (.num 12) (Registry.mk [1, 2, 3, 4, 5, 6, 7, 8, 9, 11] []) =
      (.error "No available custom log level slots.",
       Registry.mk [1, 2, 3, 4, 5, 6, 7, 8, 9, 11] []) := by
  constructor
  · exact is_loggable_int_binds_or_raises.1 [] 35 initialRegistry
      (by norm_num) rfl (by decide) (by decide)
  · exact is_loggable_int_binds_or_raises.2 [] 12
      (Registry.mk [1, 2, 3, 4, 5, 6, 7, 8, 9, 11] [])
      (by norm_num) rfl (by decide) (by decide)

/-- C5: a channel configured with a threshold level `T` permits exactly
the levels whose numeric value (as of policy-set time) is at least
`T`'s numeric value, whatever the registry looks like when the check
runs. -/
theorem threshold_filter_permits (r r1 : Registry) (T : LogLevel)
    (S : List LogLevel)
    (h : configure_levels (some (.arg (.lvl T))) none none r = (.ok S, r1))
    (L : LogLevel) (r2 : Registry) :
    (is_loggable S (.lvl L) r2).1 =
      .ok (decide (logging_level r.custom_levels T ≤
                   logging_level r.custom_levels L)) := by
  have heval : configure_levels (some (.arg (.lvl T))) none none r =
      (.ok (allLevels.filter (fun l =>
        logging_level r.custom_levels T ≤ logging_level r.custom_levels l)),
       r) := rfl
  rw [heval] at h
  obtain ⟨hS, hr⟩ : (allLevels.filter (fun l =>
      logging_level r.custom_levels T ≤ logging_level r.custom_levels l))
        = S ∧ r = r1 := by
    simpa using h
  subst hS
  have hiff : L ∈ allLevels.filter (fun l =>
      logging_level r.custom_levels T ≤ logging_level r.custom_levels l) ↔
      logging_level r.custom_levels T ≤ logging_level r.custom_levels L := by
    rw [List.mem_filter]
    simp [mem_allLevels]
  simp only [is_loggable, resolveItem]
  exact congrArg Except.ok (decide_eq_decide.mpr hiff)

/-- Witness for C5: threshold `WARNING` on the pristine registry permits
`WARNING` and `ERROR` but not `DEBUG`. -/
theorem threshold_filter_permits_witness :
    (is_loggable [LogLevel.WARNING, .ERROR, .FATAL, .CRITICAL]
      (.lvl .DEBUG) initialRegistry).1 = .ok false ∧
    (is_loggable [LogLevel.WARNING, .ERROR, .FATAL, .CRITICAL]
      (.lvl .WARNING) initialRegistry).1 = .ok true ∧
    (is_loggable [LogLevel.WARNING, .ERROR, .FATAL, .CRITICAL]
      (.lvl .ERROR) initialRegistry).1 = .ok true := by
  have h := threshold_filter_permits initialRegistry initialRegistry
    .WARNING [LogLevel.WARNING, .ERROR, .FATAL, .CRITICAL] rfl
  exact ⟨(h .DEBUG initialRegistry).trans rfl,
    (h .WARNING initialRegistry).trans rfl,
    (h .ERROR initialRegistry).trans rfl⟩

/-- C7: the permitted set is an eager snapshot.  First part: after the
set is computed, a later registry mutation through `custom_level` never
changes the outcome of a membership check on a known severity (the
stored set, not the registry, decides).  Second part, concretely: with
threshold `WARNING` set on the pristine registry, `CUSTOM0` is not
permitted; binding `35` to `CUSTOM0` afterwards still leaves it not
permitted on the stored set, while re-applying the same policy on the
mutated registry recomputes a set that does permit `CUSTOM0`. -/
theorem permitted_set_snapshot :
    (∀ (S : List LogLevel) (L : LogLevel) (v : Int) (rep : Option String)
       (r : Registry),
      (is_loggable S (.lvl L) ((custom_level v rep r).2)).1 =
        (is_loggable S (.lvl L) r).1) ∧
    (∃ S0,
      configure_levels (some (.arg (.lvl .WARNING))) none none
          initialRegistry = (.ok S0, initialRegistry) ∧
      (is_loggable S0 (.lvl .CUSTOM0)
        ((custom_level 35 none initialRegistry).2)).1 = .ok false ∧
      ∃ S1,
        configure_levels (some (.arg (.lvl .WARNING))) none none
            ((custom_level 35 none initialRegistry).2) =
          (.ok S1, (custom_level 35 none initialRegistry).2) ∧
        (is_loggable S1 (.lvl .CUSTOM0)
          ((custom_level 35 none initialRegistry).2)).1 = .ok true) := by
  constructor
  · intro S L v rep r
    rfl
  · exact ⟨_, rfl, rfl, _, rfl, rfl⟩

/-- A successful dictionary lookup exhibits a member of the association
list. -/
theorem mem_of_assocGet {κ β : Type} [BEq κ] [LawfulBEq κ]
    (m : List (κ × β)) (k : κ) (v : β) (h : assocGet m k = some v) :
    (k, v) ∈ m := by
  induction m with
  | nil => simp [assocGet] at h
  | cons p rest ih =>
    obtain ⟨a, b⟩ := p
    by_cases hp : a == k
    · have ha : a = k := by simpa using hp
      have hb : b = v := by
        simpa [assocGet, List.find?, hp] using h
      subst ha; subst hb
      exact List.mem_cons_self _ _
    · have h' : assocGet rest k = some v := by
        simpa [assocGet, List.find?, hp] using h
      exact List.mem_cons_of_mem _ (ih h')

/-- A key absent from the key column makes the dictionary lookup fail. -/
theorem assocGet_eq_none_of_not_mem_keys {κ β : Type} [BEq κ] [LawfulBEq κ]
    (m : List (κ × β)) (k : κ) (h : k ∉ m.map Prod.fst) :
    assocGet m k = none := by
  induction m with
  | nil => rfl
  | cons p rest ih =>
    simp only [List.map_cons, List.mem_cons, not_or] at h
    have hne : (p.1 == k) = false :=
      beq_eq_false_iff_ne.mpr (fun hc => h.1 hc.symm)
    simpa [assocGet, List.find?, hne] using ih h.2

/-- Deletion by value only removes dictionary entries: the remaining
keys are among the original ones. -/
theorem eraseFirstVal_keys_subset {κ : Type} (l : List (κ × Nat)) (c : Nat) :
    (eraseFirstVal l c).map Prod.fst ⊆ l.map Prod.fst := by
  induction l with
  | nil => simp [eraseFirstVal]
  | cons p rest ih =>
    by_cases hp : p.2 == c
    · simp only [eraseFirstVal, hp, if_true, List.map_cons]
      exact List.subset_cons_of_subset _ (List.Subset.refl _)
    · simp only [eraseFirstVal, hp, if_false, List.map_cons]
      exact List.cons_subset_cons _ ih

/-- With distinct keys and distinct values, deleting the entry for a
bound channel removes its identifier from the key column. -/
theorem key_not_mem_eraseFirstVal (l : List (Nat × Nat)) (i c : Nat)
    (hk : (l.map Prod.fst).Nodup) (hv : (l.map Prod.snd).Nodup)
    (hm : (i, c) ∈ l) :
    i ∉ (eraseFirstVal l c).map Prod.fst := by
  induction l with
  | nil => simp at hm
  | cons p rest ih =>
    simp only [List.map_cons, List.nodup_cons] at hk hv
    by_cases hp : p.2 == c
    · have herase : eraseFirstVal (p :: rest) c = rest := by
        simp [eraseFirstVal, hp]
      rw [herase]
      rcases List.mem_cons.mp hm with hcase | hcase
      · have : i = p.1 := by rw [← hcase]
        exact this ▸ hk.1
      · have hc : p.2 = c := by simpa using hp
        have : c ∈ rest.map Prod.snd :=
          List.mem_map.mpr ⟨(i, c), hcase, rfl⟩
        exact absurd (hc ▸ this) hv.1
    · have hpf : (p.2 == c) = false := by simpa using hp
      have herase : eraseFirstVal (p :: rest) c = p :: eraseFirstVal rest c := by
        simp [eraseFirstVal, hpf]
      rw [herase]
      simp only [List.map_cons, List.mem_cons, not_or]
      have hcne : p.2 ≠ c := by simpa using hp
      rcases List.mem_cons.mp hm with hcase | hcase
      · exact absurd (by rw [← hcase]) hcne
      · constructor
        · intro hip
          have : i ∈ rest.map Prod.fst :=
            List.mem_map.mpr ⟨(i, c), hcase, rfl⟩
          exact hk.1 (hip ▸ this)
        · exact ih hk.2 hv.2 hcase

/-- Removing a channel by a bound identifier unbinds that identifier and
keeps the counter. -/
theorem remove_byId_unbinds (s : LoggerState) (i c : Nat)
    (hwf : WfLogger s) (hb : assocGet s.channel_ids i = some c) :
    i ∉ (remove_channel (.byId i) s).channel_ids.map Prod.fst ∧
    (remove_channel (.byId i) s).channel_id_counter = s.channel_id_counter ∧
    i < s.channel_id_counter := by
  obtain ⟨h1, h2, h3, h4, _h5⟩ := hwf
  have hm : (i, c) ∈ s.channel_ids := mem_of_assocGet _ _ _ hb
  have hcmem : c ∈ s.log_channels := h4 _ hm
  have heval : remove_channel (.byId i) s =
      { log_channels := s.log_channels.erase c,
        channel_id_counter := s.channel_id_counter,
        channel_ids := eraseFirstVal s.channel_ids c,
        channel_selectors := eraseFirstVal s.channel_selectors c } := by
    simp [remove_channel, hb, hcmem]
  rw [heval]
  exact ⟨key_not_mem_eraseFirstVal _ _ _ h2 h3 hm, rfl, h1 _ hm⟩

/-- Once an identifier is unbound and below the counter, it stays
unbound under any single channel-management call, and the counter never
decreases. -/
theorem key_free_applyOp (s : LoggerState) (op : LoggerOp) (i : Nat)
    (h1 : i ∉ s.channel_ids.map Prod.fst) (h2 : i < s.channel_id_counter) :
    i ∉ (applyOp s op).channel_ids.map Prod.fst ∧
    s.channel_id_counter ≤ (applyOp s op).channel_id_counter ∧
    i < (applyOp s op).channel_id_counter := by
  cases op with
  | add c sel =>
    by_cases hc : c ∈ s.log_channels
    · have hids : (applyOp s (.add c sel)).channel_ids = s.channel_ids := by
        cases sel <;> simp [applyOp, add_channel, hc]
      have hcnt : (applyOp s (.add c sel)).channel_id_counter =
          s.channel_id_counter := by
        cases sel <;> simp [applyOp, add_channel, hc]
      rw [hids, hcnt]
      exact ⟨h1, le_refl _, h2⟩
    · have heval : (applyOp s (.add c sel)).channel_ids =
          s.channel_ids ++ [(s.channel_id_counter, c)] := by
        simp [applyOp, add_channel, hc]
      have hcnt : (applyOp s (.add c sel)).channel_id_counter =
          s.channel_id_counter + 1 := by
        simp [applyOp, add_channel, hc]
      refine ⟨?_, by omega, by omega⟩
      rw [heval]
      simp only [List.map_append, List.mem_append, not_or]
      refine ⟨h1, ?_⟩
      simp only [List.map_cons, List.map_nil, List.mem_singleton]
      omega
  | remove ref =>
    cases htgt : (match ref with
      | ChannelRef.byId j => assocGet s.channel_ids j
      | ChannelRef.bySelector n => assocGet s.channel_selectors n
      | ChannelRef.byInstance c => some c) with
    | none =>
      have : applyOp s (.remove ref) = s := by
        simp [applyOp, remove_channel, htgt]
      rw [this]
      exact ⟨h1, le_refl _, h2⟩
    | some c =>
      by_cases hc : c ∈ s.log_channels
      · have heval : (applyOp s (.remove ref)).channel_ids =
            eraseFirstVal s.channel_ids c := by
          simp [applyOp, remove_channel, htgt, hc]
        have hcnt : (applyOp s (.remove ref)).channel_id_counter =
            s.channel_id_counter := by
          simp [applyOp, remove_channel, htgt, hc]
        refine ⟨?_, by omega, by omega⟩
        rw [heval]
        intro hmem
        exact h1 (eraseFirstVal_keys_subset _ _ hmem)
      · have : applyOp s (.remove ref) = s := by
          simp [applyOp, remove_channel, htgt, hc]
        rw [this]
        exact ⟨h1, le_refl _, h2⟩

/-- Iterated form of `key_free_applyOp` over any sequence of calls. -/
theorem key_free_runOps (ops : List LoggerOp) (s : LoggerState) (i : Nat)
    (h1 : i ∉ s.channel_ids.map Prod.fst) (h2 : i < s.channel_id_counter) :
    i ∉ (runOps ops s).channel_ids.map Prod.fst ∧
    s.channel_id_counter ≤ (runOps ops s).channel_id_counter := by
  induction ops generalizing s with
  | nil => exact ⟨h1, le_refl _⟩
  | cons op rest ih =>
    have hstep := key_free_applyOp s op i h1 h2
    have hrec := ih (applyOp s op) hstep.1 hstep.2.2
    exact ⟨hrec.1, le_trans hstep.2.1 hrec.2⟩

/-- C8: channel identifiers are never reused.  In a well-formed logger
state where identifier `i` is bound, after `remove_channel(i)` and any
further sequence of `add_channel` / `remove_channel` calls, `i` is still
unbound (no later `add_channel` ever assigns it again, because fresh
identifiers come from the monotonically non-decreasing counter that
stays above `i`), and `get_channel(i)` raises the channel-not-found
`ValueError`. -/
theorem channel_ids_never_reused (s : LoggerState) (i c : Nat)
    (ops : List LoggerOp) (hwf : WfLogger s)
    (hb : assocGet s.channel_ids i = some c) :
    assocGet (runOps ops (remove_channel (.byId i) s)).channel_ids i
      = none ∧
    get_channel_by_id i (runOps ops (remove_channel (.byId i) s)) =
      .error ("No channel found with ID " ++ toString i) ∧
    (remove_channel (.byId i) s).channel_id_counter ≤
      (runOps ops (remove_channel (.byId i) s)).channel_id_counter := by
  obtain ⟨hfree, hcnt, hlt⟩ := remove_byId_unbinds s i c hwf hb
  have h2 : i < (remove_channel (.byId i) s).channel_id_counter := by
    rw [hcnt]; exact hlt
  obtain ⟨ha, hm⟩ := key_free_runOps ops _ i hfree h2
  have hnone := assocGet_eq_none_of_not_mem_keys _ i ha
  exact ⟨hnone, by simp [get_channel_by_id, hnone], hm⟩

/-- Witness for C8: two channels get identifiers 0 and 1; after removing
identifier 0, adding another channel and removing one by instance, the
lookup of identifier 0 still fails. -/
theorem channel_ids_never_reused_witness :
    assocGet (runOps [LoggerOp.add 9 none,
        LoggerOp.remove (.byInstance 7)]
      (remove_channel (.byId 0)
        (add_channel 7 none
          (add_channel 5 none emptyLoggerState)))).channel_ids 0 = none ∧
    get_channel_by_id 0 (runOps [LoggerOp.add 9 none,
        LoggerOp.remove (.byInstance 7)]
      (remove_channel (.byId 0)
        (add_channel 7 none (add_channel 5 none emptyLoggerState)))) =
      .error ("No channel found with ID " ++ toString 0) := by
  have h := channel_ids_never_reused
    (add_channel 7 none (add_channel 5 none emptyLoggerState)) 0 5
    [LoggerOp.add 9 none, LoggerOp.remove (.byInstance 7)]
    (by unfold WfLogger; decide) rfl
  exact ⟨h.1, h.2.1⟩

end PyFlashLogger
